import Mathlib

/-!
Verification of the Personal-Assistant repository (a Telegram bot bridging a
generative-language intent classifier and the Toggl time-tracking REST API).

The embedding below models the two Python source files:
  * `src/features/toggle/toggl_api.py` — the Toggl REST client;
  * `src/app.py` — the classifier adapter and the conversation handler.

Modelling conventions:
  * Python strings are modelled as `List Char`.
  * JSON values (`response.json()` results, classifier output) are the
    inductive `JVal`; Python dicts keep insertion order, so objects are
    sequences of key/value entries (`JEntries`) and key assignment is
    `objSet` (update in place, append when absent), matching CPython dict
    semantics.
  * Timestamps (`datetime` values) are integer seconds; `timedelta(seconds=n)`
    addition becomes integer addition.  `isoformat` is an injective
    serialisation and is elided.
  * Remote HTTP exchanges are a passive environment (`TogglEnv`) holding the
    parsed response body of each endpoint; `raise_for_status` is assumed to
    pass (all claims are about 2xx exchanges).
  * Fallible Python code returns `Except PyErr _`; a raised exception is
    `.error e`.
-/

/-- Python exception kinds that the modelled code can raise. -/
inductive PyErr where
  | valueError
  | typeError
  | keyError
  | otherError
deriving DecidableEq

mutual

/-- A JSON value, as produced by `response.json()` / `json.loads`.
Numbers are modelled as integers (every number the program manipulates is an
integer number of seconds or an id). -/
inductive JVal where
  | jnull
  | jbool (b : Bool)
  | jnum (n : Int)
  | jstr (s : List Char)
  | jarr (xs : JItems)
  | jobj (fs : JEntries)

/-- The elements of a JSON array. -/
inductive JItems where
  | inil
  | icons (v : JVal) (tail : JItems)

/-- The key/value entries of a JSON object (a Python dict in insertion
order). -/
inductive JEntries where
  | enil
  | econs (key : List Char) (v : JVal) (tail : JEntries)

end

deriving instance DecidableEq for JVal
deriving instance DecidableEq for JItems
deriving instance DecidableEq for JEntries
deriving instance DecidableEq for Except

open JVal JItems JEntries

/-- Python truthiness (`if x:`) of a JSON-decoded value: `None`, `False`, `0`,
the empty string, the empty list and the empty dict are falsy, everything
else truthy. -/
def truthy : JVal → Bool
  | jnull => false
  | jbool b => b
  | jnum n => n != 0
  | jstr s => !s.isEmpty
  | jarr inil => false
  | jarr (icons _ _) => true
  | jobj enil => false
  | jobj (econs _ _ _) => true

/-- Entry lookup, modelling `d[k]` / `d.get(k)` on a Python dict (first
match; objects are built with `objSet`, so keys are unique). -/
def jlookup : JEntries → List Char → Option JVal
  | enil, _ => none
  | econs k v rest, key => if k = key then some v else jlookup rest key

/-- Python dict assignment `d[k] = v`: overwrite in place when the key exists
(keeping its original position), append otherwise. -/
def objSet : JEntries → List Char → JVal → JEntries
  | enil, key, v => econs key v enil
  | econs k w rest, key, v =>
    if k = key then econs key v rest else econs k w (objSet rest key v)

/-- `intent.get(k)` on a classifier intent (always a dict in the program). -/
def jget (v : JVal) (key : List Char) : Option JVal :=
  match v with
  | jobj fs => jlookup fs key
  | _ => none

/-- Membership of a string among the elements of a JSON array, for the
Python `s in data` test on a decoded list. -/
def itemsContains : JItems → JVal → Bool
  | inil, _ => false
  | icons v tail, w => v = w || itemsContains tail w

/-- Substring test, for the Python `s in data` test on a decoded string. -/
def hasSubstr (needle hay : List Char) : Bool :=
  match hay with
  | [] => needle.isEmpty
  | _ :: tail => needle.isPrefixOf hay || hasSubstr needle tail

/-! ## A model of `json.loads`

A recursive-descent parser producing `JVal`, mirroring Python's `json.loads`
on the fragment the program exchanges: the document may be surrounded by JSON
whitespace, objects/arrays/strings/integers/booleans/null are supported.
Simplifications (irrelevant to every claim): numbers are integers (a fraction
or exponent part makes the parse fail rather than produce a float), and
string escapes `\uXXXX` are not decoded (a simple two-character escape is).
Duplicate object keys follow CPython: the dict keeps the first insertion
position and the last value (`objSet`). -/

/-- JSON whitespace, as skipped by `json.loads` between tokens. -/
def isJsonWs (c : Char) : Bool :=
  c = ' ' || c = '\t' || c = '\n' || c = '\r'

/-- Skip JSON whitespace. -/
def skipWs (cs : List Char) : List Char :=
  cs.dropWhile isJsonWs

/-- Decode a two-character escape sequence inside a JSON string. -/
def unescape (c : Char) : Char :=
  if c = 'n' then '\n'
  else if c = 't' then '\t'
  else if c = 'r' then '\r'
  else if c = 'b' then '\x08'
  else if c = 'f' then '\x0c'
  else c

/-- Parse the body of a JSON string (the opening quote already consumed),
returning the decoded characters and the input after the closing quote. -/
def parseStrBody : List Char → List Char → Option (List Char × List Char)
  | [], _ => none
  | c :: rest, acc =>
    if c = '\"' then some (acc.reverse, rest)
    else if c = '\\' then
      match rest with
      | [] => none
      | d :: rest2 => parseStrBody rest2 (unescape d :: acc)
    else parseStrBody rest (c :: acc)

/-- Accumulate a run of decimal digits. -/
def parseDigits : List Char → Nat → Nat × List Char
  | c :: rest, acc =>
    if c.isDigit then parseDigits rest (acc * 10 + (c.toNat - 48)) else (acc, c :: rest)
  | [], acc => (acc, [])

/-- True when the character starting `rest` would extend an integer literal
into a float literal (unsupported by this model). -/
def floatFollows : List Char → Bool
  | d :: _ => d = '.' || d = 'e' || d = 'E'
  | [] => false

/-- Parse a JSON integer literal (optional minus sign, then digits). -/
def parseNum (cs : List Char) : Option (JVal × List Char) :=
  let signed : Bool × List Char :=
    match cs with
    | '-' :: rest => (true, rest)
    | _ => (false, cs)
  match signed.2 with
  | c :: _ =>
    if c.isDigit then
      let p := parseDigits signed.2 0
      if floatFollows p.2 then none
      else some (jnum (if signed.1 then -(p.1 : Int) else (p.1 : Int)), p.2)
    else none
  | [] => none

/-- The left and right brace characters (written via their code points). -/
def lbrace : Char := '\x7b'

/-- The closing brace character. -/
def rbrace : Char := '\x7d'

/-- Append a value at the end of a JSON array (Python `list.append`). -/
def itemsSnoc : JItems → JVal → JItems
  | JItems.inil, v => JItems.icons v JItems.inil
  | JItems.icons w tail, v => JItems.icons w (itemsSnoc tail v)

mutual

/-- Parse one JSON value from the input (leading whitespace allowed),
returning it and the rest of the input.  `fuel` bounds the recursion depth;
`jsonLoads` supplies more fuel than any input can consume. -/
def parseVal : Nat → List Char → Option (JVal × List Char)
  | 0, _ => none
  | fuel + 1, cs =>
    match skipWs cs with
    | [] => none
    | c :: rest =>
      if c = lbrace then
        match skipWs rest with
        | d :: rest2 =>
          if d = rbrace then some (jobj JEntries.enil, rest2)
          else parseEntries fuel (d :: rest2) JEntries.enil
        | [] => none
      else if c = '[' then
        match skipWs rest with
        | d :: rest2 =>
          if d = ']' then some (jarr JItems.inil, rest2)
          else parseItems fuel (d :: rest2) JItems.inil
        | [] => none
      else if c = '\"' then
        match parseStrBody rest [] with
        | some (s, rest2) => some (jstr s, rest2)
        | none => none
      else if c = 't' then
        if "rue".toList.isPrefixOf rest then some (jbool true, rest.drop 3) else none
      else if c = 'f' then
        if "alse".toList.isPrefixOf rest then some (jbool false, rest.drop 4) else none
      else if c = 'n' then
        if "ull".toList.isPrefixOf rest then some (jnull, rest.drop 3) else none
      else if c = '-' || c.isDigit then parseNum (c :: rest)
      else none

/-- Parse the members of a JSON object after its opening brace (at least one
member present), accumulating a dict. -/
def parseEntries : Nat → List Char → JEntries → Option (JVal × List Char)
  | 0, _, _ => none
  | fuel + 1, cs, acc =>
    match skipWs cs with
    | c :: rest =>
      if c = '\"' then
        match parseStrBody rest [] with
        | some (key, rest2) =>
          match skipWs rest2 with
          | ':' :: rest3 =>
            match parseVal fuel rest3 with
            | some (v, rest4) =>
              match skipWs rest4 with
              | ',' :: rest5 => parseEntries fuel rest5 (objSet acc key v)
              | d :: rest5 =>
                if d = rbrace then some (jobj (objSet acc key v), rest5) else none
              | [] => none
            | none => none
          | _ => none
        | none => none
      else none
    | [] => none

/-- Parse the elements of a JSON array after its opening bracket (at least
one element present). -/
def parseItems : Nat → List Char → JItems → Option (JVal × List Char)
  | 0, _, _ => none
  | fuel + 1, cs, acc =>
    match parseVal fuel cs with
    | some (v, rest) =>
      match skipWs rest with
      | ',' :: rest2 => parseItems fuel rest2 (itemsSnoc acc v)
      | d :: rest2 => if d = ']' then some (jarr (itemsSnoc acc v), rest2) else none
      | [] => none
    | none => none

end

/-- `json.loads`: parse a complete JSON document; trailing whitespace is
allowed, anything else after the value is an error. -/
def jsonLoads (cs : List Char) : Option JVal :=
  match parseVal (cs.length + 2) cs with
  | some (v, rest) => if (skipWs rest).isEmpty then some v else none
  | none => none

/-! ## Fence stripping (`app.py`, `get_gemini_intent`, lines 93-97)

The classifier reply is `.strip()`-ed, then a leading <three backticks>`json`
marker is removed by slicing off seven characters, then a trailing
three-backtick marker is removed by slicing off the last three characters;
each removal happens only when the corresponding `startswith`/`endswith`
test succeeds. -/

/-- The characters removed by Python `str.strip()` with no argument
(ASCII whitespace; the exotic Unicode whitespace Python also strips never
occurs in the texts at hand). -/
def isPySpace (c : Char) : Bool :=
  c = ' ' || c = '\t' || c = '\n' || c = '\r' || c = '\x0b' || c = '\x0c'

/-- Python `str.rstrip()`. -/
def pyStripRight (s : List Char) : List Char :=
  (s.reverse.dropWhile isPySpace).reverse

/-- Python `str.strip()`. -/
def pyStrip (s : List Char) : List Char :=
  pyStripRight (s.dropWhile isPySpace)

/-- The backtick character (by code point). -/
def backtick : Char := Char.ofNat 96

/-- The leading fence marker the code tests with `startswith`. -/
def fenceOpen : List Char := "```json".toList

/-- The trailing fence marker the code tests with `endswith`. -/
def fenceClose : List Char := "```".toList

/-- Lines 93-97 of `app.py`: strip, drop a leading code-fence marker when
present, drop a trailing one when present. -/
def stripFences (s : List Char) : List Char :=
  let t0 := pyStrip s
  let t1 := if fenceOpen <+: t0 then t0.drop 7 else t0
  if fenceClose <:+ t1 then t1.take (t1.length - 3) else t1

/-- The same two removals performed in the opposite order (trailing marker
first), used to state order-independence of the fence stripping. -/
def stripFencesRev (s : List Char) : List Char :=
  let t0 := pyStrip s
  let t1 := if fenceClose <:+ t0 then t0.take (t0.length - 3) else t0
  if fenceOpen <+: t1 then t1.drop 7 else t1

/-! ## The Toggl client (`src/features/toggle/toggl_api.py`)

Each function's HTTP exchanges are read from a `TogglEnv` holding the parsed
response body of each endpoint (the environment plays the remote service;
`raise_for_status` is assumed to pass). -/

/-- The parsed response bodies of the Toggl endpoints, plus the current
wall-clock time (`datetime.now`, as integer seconds). -/
structure TogglEnv where
  meBody : JVal
  projectsBody : List JVal
  currentEntryBody : JVal
  startResponse : JVal
  stopResponse : JVal
  createResponse : JVal
  now : Int
deriving DecidableEq

/-- The `default_workspace_id` key of the `/me` response. -/
def kDefaultWorkspace : List Char := "default_workspace_id".toList

/-- The `client_id` key of a project object. -/
def kClientId : List Char := "client_id".toList

/-- The `id` key of a time-entry object. -/
def kId : List Char := "id".toList

/-- The fixed attribution tag sent with every created entry. -/
def createdWithTag : List Char := "Personal Assistant Bot".toList

/-- `get_workspace_id` (lines 24-32): look up `default_workspace_id` in the
`/me` body; `if data and "default_workspace_id" in data: return it`, else
`None`.  For a truthy non-dict body the `in` test or the subscription would
raise `TypeError` (never reached with the real endpoint). -/
def get_workspace_id (body : JVal) : Except PyErr (Option JVal) :=
  if truthy body then
    match body with
    | JVal.jobj fs =>
      match jlookup fs kDefaultWorkspace with
      | some v => .ok (some v)
      | none => .ok none
    | JVal.jstr s =>
      if hasSubstr kDefaultWorkspace s then .error .typeError else .ok none
    | JVal.jarr xs =>
      if itemsContains xs (JVal.jstr kDefaultWorkspace) then .error .typeError
      else .ok none
    | _ => .error .typeError
  else .ok none

/-- Truthiness of the value returned by `get_workspace_id`
(`if not workspace_id:`). -/
def wsTruthy (w : Option JVal) : Bool :=
  match w with
  | none => false
  | some v => truthy v

/-- Python `p.get("client_id") == client_id` where `client_id` is an `int`:
`None` and non-numeric values compare unequal; a boolean compares as its
integer value (Python `bool` is an `int` subtype). -/
def pyEqInt (v : Option JVal) (c : Int) : Bool :=
  match v with
  | some (JVal.jnum x) => x = c
  | some (JVal.jbool b) => (if b then (1 : Int) else 0) = c
  | _ => false

/-- `get_projects` (lines 45-62): resolve the workspace (empty list when it
is falsy), fetch the full project list, and filter client-side by
`client_id` only when that argument is truthy. -/
def get_projects (env : TogglEnv) (client_id : Option Int) :
    Except PyErr (List JVal) :=
  match get_workspace_id env.meBody with
  | .error e => .error e
  | .ok w =>
    if wsTruthy w then
      match client_id with
      | some c =>
        if c = 0 then .ok env.projectsBody
        else .ok (env.projectsBody.filter fun p => pyEqInt (jget p kClientId) c)
      | none => .ok env.projectsBody
    else .ok []

/-- The JSON body `start_time_entry` posts (line 71-77). -/
structure StartPayload where
  billable : Bool
  description : JVal
  project_id : Option Int
  workspace_id : JVal
  created_with : List Char
deriving DecidableEq

/-- `start_time_entry` (lines 64-80): resolve the workspace (`ValueError`
when falsy), post the payload, return the response body. -/
def start_time_entry (env : TogglEnv) (description : JVal)
    (project_id : Option Int) : Except PyErr (StartPayload × JVal) :=
  match get_workspace_id env.meBody with
  | .error e => .error e
  | .ok w =>
    match w with
    | some wv =>
      if truthy wv then
        .ok ({ billable := false, description := description,
               project_id := project_id, workspace_id := wv,
               created_with := createdWithTag }, env.startResponse)
      else .error .valueError
    | none => .error .valueError

/-- `stop_active_time_entry` (lines 82-95): fetch the current entry; a falsy
body means nothing is running and `None` is returned.  When an entry is
running the code reads its `id` and then builds the keyword argument
`json=` applied to the literal consisting of an empty dict inside set
braces: that is a Python *set literal containing a dict*, whose construction
hashes the dict and raises `TypeError: unhashable type` before any stop
request is sent. -/
def stop_active_time_entry (env : TogglEnv) : Except PyErr (Option JVal) :=
  let current_entry := env.currentEntryBody
  if truthy current_entry then
    match current_entry with
    | JVal.jobj fs =>
      match jlookup fs kId with
      | some _ => .error .typeError
      | none => .error .keyError
    | _ => .error .typeError
  else .ok none

/-- The JSON body `create_time_entry` posts (lines 123-132). -/
structure EntryPayload where
  billable : Bool
  description : JVal
  project_id : Option Int
  workspace_id : JVal
  created_with : List Char
  start : Int
  stop : Int
  duration : Int
deriving DecidableEq

/-- `create_time_entry` (lines 97-136): resolve the workspace (`ValueError`
when falsy); with a `start_time` the entry spans `start_time` to
`start_time + duration_seconds`, otherwise it ends `now` and starts
`now - duration_seconds`; `duration` is sent verbatim.  A non-numeric
`duration_seconds` makes `timedelta` raise `TypeError`. -/
def create_time_entry (env : TogglEnv) (description : JVal)
    (duration_seconds : JVal) (project_id : Option Int)
    (start_time : Option Int) : Except PyErr (EntryPayload × JVal) :=
  match get_workspace_id env.meBody with
  | .error e => .error e
  | .ok w =>
    match w with
    | some wv =>
      if truthy wv then
        match duration_seconds with
        | JVal.jnum n =>
          let startStop : Int × Int :=
            match start_time with
            | some t => (t, t + n)
            | none => (env.now - n, env.now)
          .ok ({ billable := false, description := description,
                 project_id := project_id, workspace_id := wv,
                 created_with := createdWithTag, start := startStop.1,
                 stop := startStop.2, duration := n }, env.createResponse)
        | _ => .error .typeError
      else .error .valueError
    | none => .error .valueError

/-! ## The classifier adapter and conversation handler (`src/app.py`) -/

/-- The `action` key of a classifier intent. -/
def kAction : List Char := "action".toList

/-- The `description` key of a classifier intent. -/
def kDescription : List Char := "description".toList

/-- The `duration_seconds` key of a classifier intent. -/
def kDurationSeconds : List Char := "duration_seconds".toList

/-- The `raw_text` key the adapter adds to every intent. -/
def kRawText : List Char := "raw_text".toList

/-- The `error` key of a failure intent. -/
def kError : List Char := "error".toList

/-- The `start_timer` action. -/
def sStartTimer : List Char := "start_timer".toList

/-- The `add_entry` action. -/
def sAddEntry : List Char := "add_entry".toList

/-- The `stop_timer` action. -/
def sStopTimer : List Char := "stop_timer".toList

/-- The `get_status` action. -/
def sGetStatus : List Char := "get_status".toList

/-- The `none` action. -/
def sNone : List Char := "none".toList

/-- The outcome of the `generate_content` call inside `get_gemini_intent`:
either the call raised (with `str(e)` as message) or it returned a reply
text. -/
inductive GenResult where
  | failure (msg : List Char)
  | success (text : List Char)
deriving DecidableEq

/-- Stand-in for `str(e)` of the `json.JSONDecodeError` raised on a reply
that is not valid JSON (the exact message text is outside the model). -/
def parseFailMsg : List Char := "invalid json in model reply".toList

/-- Stand-in for `str(e)` of the `TypeError` raised by the assignment
`intent["raw_text"] = text` when the parsed JSON is not a dict. -/
def notDictMsg : List Char := "parsed intent is not a dict".toList

/-- The intent returned on any classification failure (line 104):
`action none`, the original text, and an `error` message. -/
def errorIntent (text msg : List Char) : JVal :=
  JVal.jobj (JEntries.econs kAction (JVal.jstr sNone)
    (JEntries.econs kRawText (JVal.jstr text)
      (JEntries.econs kError (JVal.jstr msg) JEntries.enil)))

/-- The intent returned when no model credential is configured (line 85):
`action none` and the original text, without an `error` key. -/
def unconfiguredIntent (text : List Char) : JVal :=
  JVal.jobj (JEntries.econs kAction (JVal.jstr sNone)
    (JEntries.econs kRawText (JVal.jstr text) JEntries.enil))

/-- `get_gemini_intent` (lines 81-104): without a configured model return a
bare `none` intent; otherwise send the prompt, strip an optional code fence
from the reply, parse it as JSON and add `raw_text`.  Every exception in
that block — a model failure, a JSON parse failure, or the `raw_text`
assignment on a non-dict — is caught and turned into an error intent. -/
def get_gemini_intent (configured : Bool) (res : GenResult)
    (text : List Char) : JVal :=
  if configured then
    match res with
    | .failure msg => errorIntent text msg
    | .success rtext =>
      match jsonLoads (stripFences rtext) with
      | some (JVal.jobj fs) => JVal.jobj (objSet fs kRawText (JVal.jstr text))
      | some _ => errorIntent text notDictMsg
      | none => errorIntent text parseFailMsg
  else unconfiguredIntent text

/-- A call the conversation handler issues to the Toggl client module. -/
inductive TogglCall where
  | startCall (description : JVal) (project_id : Int)
  | createCall (description : JVal) (duration_seconds : JVal) (project_id : Int)
  | stopCall
deriving DecidableEq

/-- The final reply the handler sends for one inbound message (intermediate
progress messages of the voice path are not modelled). -/
inductive Reply where
  | geminiDisabled
  | selectProjectPrompt
  | needDurationPrompt
  | startedTimer (description : JVal) (project_id : Int)
  | addedEntry (description : JVal) (duration_seconds : JVal) (project_id : Int)
  | stoppedTimer (entry : JVal)
  | noActiveTimer
  | statusPlaceholder
  | unsureIntent (intent : JVal)
  | unknownAction (intent : JVal)
  | togglValueError
  | togglGenericError
  | voiceFailed
deriving DecidableEq

/-- The intent-to-action dispatch shared verbatim by `handle_text_message`
(lines 122-167) and `voice_message_handler` (lines 255-300): read `action`,
`description` (defaulting to the inbound text), `duration_seconds` and the
selected project; guard `start_timer`/`add_entry` on a truthy project id and
(for `add_entry`) a truthy duration; any `ValueError` from the Toggl client
becomes the key-hint reply and any other exception the generic error reply.
Returns the final reply and the list of Toggl-client calls issued. -/
def dispatchIntent (env : TogglEnv) (intent : JVal) (userText : List Char)
    (selectedProject : Option Int) : Reply × List TogglCall :=
  let action := jget intent kAction
  let description := (jget intent kDescription).getD (JVal.jstr userText)
  let duration := jget intent kDurationSeconds
  if action = some (JVal.jstr sStartTimer) then
    match selectedProject with
    | none => (.selectProjectPrompt, [])
    | some p =>
      if p = 0 then (.selectProjectPrompt, [])
      else
        match start_time_entry env description (some p) with
        | .ok _ => (.startedTimer description p, [.startCall description p])
        | .error .valueError => (.togglValueError, [.startCall description p])
        | .error _ => (.togglGenericError, [.startCall description p])
  else if action = some (JVal.jstr sAddEntry) then
    match selectedProject with
    | none => (.selectProjectPrompt, [])
    | some p =>
      if p = 0 then (.selectProjectPrompt, [])
      else
        match duration with
        | none => (.needDurationPrompt, [])
        | some dv =>
          if truthy dv then
            match create_time_entry env description dv (some p) none with
            | .ok _ => (.addedEntry description dv p, [.createCall description dv p])
            | .error .valueError => (.togglValueError, [.createCall description dv p])
            | .error _ => (.togglGenericError, [.createCall description dv p])
          else (.needDurationPrompt, [])
  else if action = some (JVal.jstr sStopTimer) then
    match stop_active_time_entry env with
    | .ok (some entry) => (.stoppedTimer entry, [.stopCall])
    | .ok none => (.noActiveTimer, [.stopCall])
    | .error .valueError => (.togglValueError, [.stopCall])
    | .error _ => (.togglGenericError, [.stopCall])
  else if action = some (JVal.jstr sGetStatus) then (.statusPlaceholder, [])
  else if action = some (JVal.jstr sNone) then (.unsureIntent intent, [])
  else (.unknownAction intent, [])

/-- `handle_text_message` (lines 112-167): with no model credential reply
that the feature is disabled; otherwise classify the text and dispatch.
(The `last_intent` bookkeeping mutates only conversation state and is not
modelled.) -/
def handle_text_message (env : TogglEnv) (configured : Bool)
    (res : GenResult) (userText : List Char) (selectedProject : Option Int) :
    Reply × List TogglCall :=
  if configured then
    dispatchIntent env (get_gemini_intent configured res userText) userText
      selectedProject
  else (.geminiDisabled, [])

/-- `voice_message_handler` (lines 232-303): with no model credential reply
that the feature is disabled; a failed download/transcription (`none`) ends
with the failure reply; otherwise the transcription is classified and
dispatched exactly like a text message, with the transcription standing in
for the message text. -/
def voice_message_handler (env : TogglEnv) (configured : Bool)
    (transcription : Option (List Char)) (res : GenResult)
    (selectedProject : Option Int) : Reply × List TogglCall :=
  if configured then
    match transcription with
    | some t =>
      dispatchIntent env (get_gemini_intent configured res t) t selectedProject
    | none => (.voiceFailed, [])
  else (.geminiDisabled, [])

/-! ## Concrete fixtures used by witnesses -/

/-- A `/me` body carrying a (truthy) default workspace id. -/
def meOk : JVal :=
  JVal.jobj (JEntries.econs kDefaultWorkspace (JVal.jnum 1) JEntries.enil)

/-- Build a concrete `TogglEnv` from the bodies a scenario needs. -/
def testEnv (me : JVal) (projects : List JVal) (current : JVal)
    (nowT : Int) : TogglEnv :=
  { meBody := me, projectsBody := projects, currentEntryBody := current,
    startResponse := JVal.jnull, stopResponse := JVal.jnull,
    createResponse := JVal.jnull, now := nowT }

/-! ## Helper lemmas on stripping and fences -/

theorem dropWhile_eq_self_of_head (p : Char → Bool) (l : List Char)
    (h : ∀ c, l.head? = some c → p c = false) : l.dropWhile p = l := by
  cases l with
  | nil => rfl
  | cons a t =>
    rw [List.dropWhile_cons, h a rfl]
    simp

theorem head_not_of_dropWhile_eq_self (p : Char → Bool) (l : List Char)
    (h : l.dropWhile p = l) : ∀ c, l.head? = some c → p c = false := by
  intro c hc
  cases l with
  | nil => simp at hc
  | cons a t =>
    simp only [List.head?_cons, Option.some.injEq] at hc
    subst hc
    by_contra hp
    rw [Bool.not_eq_false] at hp
    rw [List.dropWhile_cons, hp] at h
    simp only [if_true] at h
    have hlen := (List.dropWhile_suffix (l := t) p).length_le
    rw [h] at hlen
    simp at hlen

theorem getLast_not_of_pyStripRight_eq_self (l : List Char)
    (h : pyStripRight l = l) : ∀ c, l.getLast? = some c → isPySpace c = false := by
  intro c hc
  have hrev : l.reverse.dropWhile isPySpace = l.reverse := by
    have h2 := congrArg List.reverse h
    rwa [pyStripRight, List.reverse_reverse] at h2
  exact head_not_of_dropWhile_eq_self _ _ hrev c (by rwa [List.head?_reverse])

theorem pyStripRight_eq_self_of_getLast (l : List Char)
    (h : ∀ c, l.getLast? = some c → isPySpace c = false) : pyStripRight l = l := by
  rw [pyStripRight,
    dropWhile_eq_self_of_head _ _ (fun c hc => h c (by rwa [List.head?_reverse] at hc)),
    List.reverse_reverse]

theorem pyStrip_eq_self (l : List Char)
    (hh : ∀ c, l.head? = some c → isPySpace c = false)
    (hl : ∀ c, l.getLast? = some c → isPySpace c = false) : pyStrip l = l := by
  rw [pyStrip, dropWhile_eq_self_of_head _ _ hh, pyStripRight_eq_self_of_getLast _ hl]

theorem fenceOpen_cons : fenceOpen = backtick :: "``json".toList := by decide

theorem fenceClose_ne_nil : fenceClose ≠ [] := by decide

theorem backtick_not_space : isPySpace backtick = false := by decide

theorem fenceOpen_length : fenceOpen.length = 7 := by decide

theorem fenceClose_length : fenceClose.length = 3 := by decide

theorem getLast_fenceClose : fenceClose.getLast? = some backtick := by decide

theorem head_fenceOpen_append (X : List Char) :
    (fenceOpen ++ X).head? = some backtick := by
  rw [fenceOpen_cons]; rfl

theorem getLast_append_fenceClose (X : List Char) :
    (X ++ fenceClose).getLast? = some backtick := by
  rw [List.getLast?_append_of_ne_nil X fenceClose_ne_nil, getLast_fenceClose]

theorem getLast_of_fenceClose_suffix (l : List Char) (h : fenceClose <:+ l) :
    l.getLast? = some backtick := by
  obtain ⟨w, rfl⟩ := h
  exact getLast_append_fenceClose w

theorem fenceOpen_not_prefix_self (j : List Char) (hh : j.head? ≠ some backtick) :
    ¬ fenceOpen <+: j := by
  intro h
  obtain ⟨w, rfl⟩ := h
  exact hh (head_fenceOpen_append w)

theorem fenceOpen_not_prefix_append (j : List Char) (hh : j.head? ≠ some backtick) :
    ¬ fenceOpen <+: (j ++ fenceClose) := by
  intro h
  cases j with
  | nil =>
    rw [List.nil_append] at h
    have hlen := h.length_le
    rw [fenceOpen_length, fenceClose_length] at hlen
    omega
  | cons a t =>
    rw [fenceOpen_cons, List.cons_append, List.cons_prefix_cons] at h
    apply hh
    rw [List.head?_cons, ← h.1]

theorem fenceClose_not_suffix (j : List Char) (hl : j.getLast? ≠ some backtick) :
    ¬ fenceClose <:+ j := fun h => hl (getLast_of_fenceClose_suffix j h)

theorem fenceClose_not_suffix_fenceOpen_append (j : List Char)
    (hl : j.getLast? ≠ some backtick) : ¬ fenceClose <:+ (fenceOpen ++ j) := by
  intro h
  have hbt := getLast_of_fenceClose_suffix _ h
  cases j with
  | nil =>
    rw [List.append_nil] at hbt
    exact absurd hbt (by decide)
  | cons a t =>
    rw [List.getLast?_append_of_ne_nil fenceOpen (by simp)] at hbt
    exact hl hbt

theorem drop_fenceOpen (X : List Char) : (fenceOpen ++ X).drop 7 = X := by
  have h := List.drop_left fenceOpen X
  rwa [fenceOpen_length] at h

theorem take_fenceClose (X : List Char) :
    (X ++ fenceClose).take ((X ++ fenceClose).length - 3) = X := by
  have hlen : (X ++ fenceClose).length - 3 = X.length := by
    rw [List.length_append, fenceClose_length]
    omega
  rw [hlen, List.take_left]

theorem pyStrip_wrapped_both (j : List Char) :
    pyStrip (fenceOpen ++ j ++ fenceClose) = fenceOpen ++ j ++ fenceClose := by
  apply pyStrip_eq_self
  · intro c hc
    rw [List.append_assoc, head_fenceOpen_append] at hc
    injection hc with hc
    rw [← hc]; exact backtick_not_space
  · intro c hc
    rw [getLast_append_fenceClose] at hc
    injection hc with hc
    rw [← hc]; exact backtick_not_space

theorem pyStrip_wrapped_left (j : List Char)
    (hl : ∀ c, j.getLast? = some c → isPySpace c = false) :
    pyStrip (fenceOpen ++ j) = fenceOpen ++ j := by
  apply pyStrip_eq_self
  · intro c hc
    rw [head_fenceOpen_append] at hc
    injection hc with hc
    rw [← hc]; exact backtick_not_space
  · intro c hc
    cases j with
    | nil =>
      rw [List.append_nil] at hc
      have hn : fenceOpen.getLast? = some 'n' := by decide
      rw [hn] at hc
      injection hc with hc
      rw [← hc]; decide
    | cons a t =>
      rw [List.getLast?_append_of_ne_nil fenceOpen (by simp)] at hc
      exact hl c hc

theorem pyStrip_wrapped_right (j : List Char)
    (hh : ∀ c, j.head? = some c → isPySpace c = false) :
    pyStrip (j ++ fenceClose) = j ++ fenceClose := by
  apply pyStrip_eq_self
  · intro c hc
    cases j with
    | nil =>
      rw [List.nil_append] at hc
      have hb : fenceClose.head? = some backtick := by decide
      rw [hb] at hc
      injection hc with hc
      rw [← hc]; exact backtick_not_space
    | cons a t =>
      rw [List.cons_append, List.head?_cons] at hc
      injection hc with hc
      exact hh c (by rw [List.head?_cons, hc])
  · intro c hc
    rw [getLast_append_fenceClose] at hc
    injection hc with hc
    rw [← hc]; exact backtick_not_space

theorem stripFences_both (j : List Char) :
    stripFences (fenceOpen ++ j ++ fenceClose) = j := by
  simp only [stripFences]
  rw [pyStrip_wrapped_both]
  rw [List.append_assoc]
  rw [if_pos (show fenceOpen <+: fenceOpen ++ (j ++ fenceClose) from ⟨j ++ fenceClose, rfl⟩)]
  rw [drop_fenceOpen]
  rw [if_pos (List.suffix_append j fenceClose)]
  exact take_fenceClose j

theorem stripFences_left (j : List Char)
    (hl : ∀ c, j.getLast? = some c → isPySpace c = false)
    (hlb : j.getLast? ≠ some backtick) :
    stripFences (fenceOpen ++ j) = j := by
  simp only [stripFences]
  rw [pyStrip_wrapped_left j hl]
  rw [if_pos (show fenceOpen <+: fenceOpen ++ j from ⟨j, rfl⟩)]
  rw [drop_fenceOpen]
  rw [if_neg (fenceClose_not_suffix j hlb)]

theorem stripFences_right (j : List Char)
    (hh : ∀ c, j.head? = some c → isPySpace c = false)
    (hhb : j.head? ≠ some backtick) :
    stripFences (j ++ fenceClose) = j := by
  simp only [stripFences]
  rw [pyStrip_wrapped_right j hh]
  rw [if_neg (fenceOpen_not_prefix_append j hhb)]
  rw [if_pos (List.suffix_append j fenceClose)]
  exact take_fenceClose j

theorem stripFences_plain (j : List Char)
    (h1 : j.dropWhile isPySpace = j) (h2 : pyStripRight j = j)
    (hhb : j.head? ≠ some backtick) (hlb : j.getLast? ≠ some backtick) :
    stripFences j = j := by
  simp only [stripFences, pyStrip]
  rw [h1, h2]
  rw [if_neg (fenceOpen_not_prefix_self j hhb)]
  rw [if_neg (fenceClose_not_suffix j hlb)]

theorem stripFencesRev_both (j : List Char) :
    stripFencesRev (fenceOpen ++ j ++ fenceClose) = j := by
  simp only [stripFencesRev]
  rw [pyStrip_wrapped_both]
  rw [if_pos (List.suffix_append (fenceOpen ++ j) fenceClose)]
  rw [take_fenceClose]
  rw [if_pos (show fenceOpen <+: fenceOpen ++ j from ⟨j, rfl⟩)]
  exact drop_fenceOpen j

theorem stripFencesRev_left (j : List Char)
    (hl : ∀ c, j.getLast? = some c → isPySpace c = false)
    (hlb : j.getLast? ≠ some backtick) :
    stripFencesRev (fenceOpen ++ j) = j := by
  simp only [stripFencesRev]
  rw [pyStrip_wrapped_left j hl]
  rw [if_neg (fenceClose_not_suffix_fenceOpen_append j hlb)]
  rw [if_pos (show fenceOpen <+: fenceOpen ++ j from ⟨j, rfl⟩)]
  exact drop_fenceOpen j

theorem stripFencesRev_right (j : List Char)
    (hh : ∀ c, j.head? = some c → isPySpace c = false)
    (hhb : j.head? ≠ some backtick) :
    stripFencesRev (j ++ fenceClose) = j := by
  simp only [stripFencesRev]
  rw [pyStrip_wrapped_right j hh]
  rw [if_pos (List.suffix_append j fenceClose)]
  rw [take_fenceClose]
  rw [if_neg (fenceOpen_not_prefix_self j hhb)]

theorem stripFencesRev_plain (j : List Char)
    (h1 : j.dropWhile isPySpace = j) (h2 : pyStripRight j = j)
    (hhb : j.head? ≠ some backtick) (hlb : j.getLast? ≠ some backtick) :
    stripFencesRev j = j := by
  simp only [stripFencesRev, pyStrip]
  rw [h1, h2]
  rw [if_neg (fenceClose_not_suffix j hlb)]
  rw [if_neg (fenceOpen_not_prefix_self j hhb)]

/-! ## Claim theorems -/

/-- Claim C2: for every classifier reply text `j` that is an already-stripped
JSON document — characterised by carrying no surrounding whitespace and
neither starting nor ending with a backtick, which holds of every valid JSON
document — wrapping it in a leading and/or trailing markdown code fence
changes nothing: the fence stripping of `get_gemini_intent` recovers `j`
under a leading-and-trailing, a leading-only and a trailing-only fence, a
reply lacking a fence is parsed as-is, the stripping is idempotent on all
four shapes and independent of the order of the leading/trailing removals,
and the classified intent of a wrapped reply equals that of the unwrapped
one. -/
theorem fence_stripping_faithful (j : List Char)
    (h1 : j.dropWhile isPySpace = j) (h2 : pyStripRight j = j)
    (hhb : j.head? ≠ some backtick) (hlb : j.getLast? ≠ some backtick) :
    stripFences (fenceOpen ++ j ++ fenceClose) = j ∧
    stripFences (fenceOpen ++ j) = j ∧
    stripFences (j ++ fenceClose) = j ∧
    stripFences j = j ∧
    (∀ s, s = fenceOpen ++ j ++ fenceClose ∨ s = fenceOpen ++ j ∨
          s = j ++ fenceClose ∨ s = j →
      stripFences (stripFences s) = stripFences s ∧
      stripFencesRev s = stripFences s) ∧
    (∀ (cfg : Bool) (text s : List Char),
      s = fenceOpen ++ j ++ fenceClose ∨ s = fenceOpen ++ j ∨
        s = j ++ fenceClose →
      get_gemini_intent cfg (GenResult.success s) text =
        get_gemini_intent cfg (GenResult.success j) text) := by
  have hh := head_not_of_dropWhile_eq_self _ _ h1
  have hl := getLast_not_of_pyStripRight_eq_self _ h2
  have hA := stripFences_both j
  have hB := stripFences_left j hl hlb
  have hC := stripFences_right j hh hhb
  have hD := stripFences_plain j h1 h2 hhb hlb
  refine ⟨hA, hB, hC, hD, ?_, ?_⟩
  · intro s hs
    rcases hs with rfl | rfl | rfl | rfl
    · exact ⟨by rw [hA]; exact hD, by rw [stripFencesRev_both j, hA]⟩
    · exact ⟨by rw [hB]; exact hD, by rw [stripFencesRev_left j hl hlb, hB]⟩
    · exact ⟨by rw [hC]; exact hD, by rw [stripFencesRev_right j hh hhb, hC]⟩
    · exact ⟨by rw [hD]; exact hD, by rw [stripFencesRev_plain _ h1 h2 hhb hlb, hD]⟩
  · intro cfg text s hs
    have hs2 : stripFences s = j := by
      rcases hs with rfl | rfl | rfl
      exacts [hA, hB, hC]
    simp only [get_gemini_intent]
    rw [hs2, hD]

/-- Witness for C2 at the concrete JSON document `[1, 2]`. -/
theorem fence_stripping_faithful_witness :
    stripFences (fenceOpen ++ "[1, 2]".toList ++ fenceClose) = "[1, 2]".toList ∧
    stripFences (fenceOpen ++ "[1, 2]".toList) = "[1, 2]".toList ∧
    get_gemini_intent true
        (GenResult.success (fenceOpen ++ "[1, 2]".toList ++ fenceClose)) "hi".toList =
      get_gemini_intent true (GenResult.success "[1, 2]".toList) "hi".toList := by
  have h := fence_stripping_faithful "[1, 2]".toList
    (by decide) (by decide) (by decide) (by decide)
  exact ⟨h.1, h.2.1, h.2.2.2.2.2 true "hi".toList _ (Or.inl rfl)⟩

/-- Claim C1 (refuted — code bug): when the current-entry endpoint reports
nothing running (a JSON `null` body), `stop_active_time_entry` returns
`None` without raising, as claimed; but when an entry IS running the
function raises `TypeError` — the keyword argument on the stop request is
written as a set literal containing an empty dict, and constructing that
set hashes the dict — instead of returning the stopped entry object,
contradicting the claim, the function's own docstring and its commented
self-test. -/
theorem stop_active_entry_set_literal_bug :
    stop_active_time_entry (testEnv meOk [] JVal.jnull 0) = .ok none ∧
    stop_active_time_entry
        (testEnv meOk []
          (JVal.jobj (JEntries.econs kId (JVal.jnum 1) JEntries.enil)) 0) =
      .error PyErr.typeError :=
  ⟨rfl, rfl⟩

/-- Claim C8: when the current-user body is a dict lacking the
`default_workspace_id` field, `get_workspace_id` returns `None` rather than
raising. -/
theorem workspace_absent_gives_none (fs : JEntries)
    (h : jlookup fs kDefaultWorkspace = none) :
    get_workspace_id (JVal.jobj fs) = .ok none := by
  cases fs with
  | enil => rfl
  | econs k v t => simp [get_workspace_id, truthy, h]

/-- Witness for C8: a dict body with only an unrelated field. -/
theorem workspace_absent_gives_none_witness :
    get_workspace_id
        (JVal.jobj (JEntries.econs "x".toList (JVal.jnum 3) JEntries.enil)) =
      .ok none :=
  workspace_absent_gives_none _ (by decide)

/-- Claim C9: `get_projects` with `client_id = 0` — a falsy but provided
value — skips the filter entirely and returns the full unfiltered project
list, because the filter is applied only when the argument is truthy. -/
theorem get_projects_zero_unfiltered (env : TogglEnv) (w : JVal)
    (hw : get_workspace_id env.meBody = .ok (some w)) (ht : truthy w = true) :
    get_projects env (some 0) = .ok env.projectsBody := by
  simp [get_projects, hw, wsTruthy, ht]

/-- Witness for C9: one project with `client_id = 5` is returned although
its `client_id` differs from the provided `0`. -/
theorem get_projects_zero_unfiltered_witness :
    get_projects
        (testEnv meOk
          [JVal.jobj (JEntries.econs kClientId (JVal.jnum 5) JEntries.enil)]
          JVal.jnull 0) (some 0) =
      .ok [JVal.jobj (JEntries.econs kClientId (JVal.jnum 5) JEntries.enil)] :=
  get_projects_zero_unfiltered _ (JVal.jnum 1) (by decide) (by decide)

/-- Claim C4 as stated is false at the provided client id `0`: with one
project whose `client_id` is 5, the subsequence of projects whose
`client_id` equals 0 is empty, yet `get_projects` returns the full list. -/
theorem get_projects_claim_cex :
    get_projects
        (testEnv meOk
          [JVal.jobj (JEntries.econs kClientId (JVal.jnum 5) JEntries.enil)]
          JVal.jnull 0) (some 0) ≠
      .ok (([JVal.jobj (JEntries.econs kClientId (JVal.jnum 5) JEntries.enil)]).filter
        fun p => pyEqInt (jget p kClientId) 0) := by decide

/-- Claim C4 (amended): for every provided *nonzero* client id `c` — the
filter runs only when the argument is truthy — `get_projects` returns
exactly the subsequence of the unfiltered project list whose `client_id`
field equals `c`, preserving the original order, and with no client id it
returns the full list unchanged. -/
theorem get_projects_filters_when_truthy (env : TogglEnv) (w : JVal) (c : Int)
    (hw : get_workspace_id env.meBody = .ok (some w)) (ht : truthy w = true)
    (hc : c ≠ 0) :
    get_projects env (some c) =
      .ok (env.projectsBody.filter fun p => pyEqInt (jget p kClientId) c) ∧
    (env.projectsBody.filter fun p => pyEqInt (jget p kClientId) c).Sublist
      env.projectsBody ∧
    get_projects env none = .ok env.projectsBody := by
  refine ⟨?_, List.filter_sublist _, ?_⟩
  · simp only [get_projects, hw, wsTruthy, ht, if_true]
    rw [if_neg hc]
  · simp [get_projects, hw, wsTruthy, ht]

/-- Witness for C4 (amended): of two projects with client ids 5 and 7,
filtering by client id 5 keeps exactly the first. -/
theorem get_projects_filters_when_truthy_witness :
    get_projects
        (testEnv meOk
          [JVal.jobj (JEntries.econs kClientId (JVal.jnum 5) JEntries.enil),
           JVal.jobj (JEntries.econs kClientId (JVal.jnum 7) JEntries.enil)]
          JVal.jnull 0) (some 5) =
      .ok [JVal.jobj (JEntries.econs kClientId (JVal.jnum 5) JEntries.enil)] := by
  rw [(get_projects_filters_when_truthy _ (JVal.jnum 1) 5
    (by decide) (by decide) (by decide)).1]
  decide

/-- Claim C3: with a resolvable workspace and a positive duration `n`,
`create_time_entry` with an explicit `start_time = T` sends `start = T`,
`stop = T + n` and `duration = n` (positive); with no `start_time` it sends
`stop = now` and `start = now - n`, again with `duration = n` positive. -/
theorem create_time_entry_timestamps (env : TogglEnv) (d : JVal) (n : Int)
    (pid : Option Int) (T : Int) (w : JVal)
    (hw : get_workspace_id env.meBody = .ok (some w)) (ht : truthy w = true)
    (hn : 0 < n) :
    (∃ r, create_time_entry env d (JVal.jnum n) pid (some T) = .ok r ∧
      r.1.start = T ∧ r.1.stop = T + n ∧ r.1.duration = n ∧
      0 < r.1.duration) ∧
    (∃ r, create_time_entry env d (JVal.jnum n) pid none = .ok r ∧
      r.1.stop = env.now ∧ r.1.start = env.now - n ∧ r.1.duration = n ∧
      0 < r.1.duration) := by
  constructor
  · have he : create_time_entry env d (JVal.jnum n) pid (some T) =
        .ok ({ billable := false, description := d, project_id := pid,
               workspace_id := w, created_with := createdWithTag,
               start := T, stop := T + n, duration := n },
             env.createResponse) := by
      simp [create_time_entry, hw, ht]
    exact ⟨_, he, rfl, rfl, rfl, hn⟩
  · have he : create_time_entry env d (JVal.jnum n) pid none =
        .ok ({ billable := false, description := d, project_id := pid,
               workspace_id := w, created_with := createdWithTag,
               start := env.now - n, stop := env.now, duration := n },
             env.createResponse) := by
      simp [create_time_entry, hw, ht]
    exact ⟨_, he, rfl, rfl, rfl, hn⟩

/-- Witness for C3: a 1800-second entry starting at time 200 spans 200 to
2000; with no start time and `now = 1000` it spans -800 to 1000. -/
theorem create_time_entry_timestamps_witness :
    (∃ r, create_time_entry (testEnv meOk [] JVal.jnull 1000)
        (JVal.jstr "m".toList) (JVal.jnum 1800) (some 3) (some 200) = .ok r ∧
      r.1.start = 200 ∧ r.1.stop = 2000 ∧ r.1.duration = 1800) ∧
    (∃ r, create_time_entry (testEnv meOk [] JVal.jnull 1000)
        (JVal.jstr "m".toList) (JVal.jnum 1800) (some 3) none = .ok r ∧
      r.1.stop = 1000 ∧ r.1.start = -800 ∧ r.1.duration = 1800) := by
  have h := create_time_entry_timestamps (testEnv meOk [] JVal.jnull 1000)
    (JVal.jstr "m".toList) 1800 (some 3) 200 (JVal.jnum 1)
    (by decide) (by decide) (by decide)
  constructor
  · obtain ⟨r, he, h1, h2, h3, _⟩ := h.1
    exact ⟨r, he, h1, by rw [h2]; norm_num, h3⟩
  · obtain ⟨r, he, h1, h2, h3, _⟩ := h.2
    refine ⟨r, he, by rw [h1]; rfl, by rw [h2]; decide, h3⟩

/-! ## Helper lemmas on the dispatch -/

theorem truthy_ne_jnull (v : JVal) (h : truthy v = true) : v ≠ JVal.jnull := by
  intro he
  subst he
  simp [truthy] at h

theorem dispatch_createCall_inv (env : TogglEnv) (intent : JVal)
    (userText : List Char) (sp : Option Int) (d dv : JVal) (pid : Int)
    (hmem : TogglCall.createCall d dv pid ∈
      (dispatchIntent env intent userText sp).2) :
    sp = some pid ∧ pid ≠ 0 ∧ jget intent kDurationSeconds = some dv ∧
      truthy dv = true ∧ dv ≠ JVal.jnull ∧
      d = (jget intent kDescription).getD (JVal.jstr userText) := by
  simp only [dispatchIntent] at hmem
  split at hmem <;> try (simp at hmem)
  all_goals (repeat' split at hmem) <;> simp_all
  all_goals (try exact truthy_ne_jnull _ (by assumption))

theorem dispatch_startCall_inv (env : TogglEnv) (intent : JVal)
    (userText : List Char) (sp : Option Int) (d : JVal) (pid : Int)
    (hmem : TogglCall.startCall d pid ∈
      (dispatchIntent env intent userText sp).2) :
    sp = some pid ∧ pid ≠ 0 ∧
      d = (jget intent kDescription).getD (JVal.jstr userText) := by
  simp only [dispatchIntent] at hmem
  split at hmem <;> try (simp at hmem)
  all_goals (repeat' split at hmem) <;> simp_all

theorem dispatch_start_no_project (env : TogglEnv) (intent : JVal)
    (userText : List Char)
    (h : jget intent kAction = some (JVal.jstr sStartTimer)) :
    dispatchIntent env intent userText none = (Reply.selectProjectPrompt, []) := by
  simp only [dispatchIntent, h]
  rfl

theorem dispatch_add_no_duration (env : TogglEnv) (intent : JVal)
    (userText : List Char) (p : Int) (hp : p ≠ 0)
    (ha : jget intent kAction = some (JVal.jstr sAddEntry))
    (hd : jget intent kDurationSeconds = none) :
    dispatchIntent env intent userText (some p) = (Reply.needDurationPrompt, []) := by
  simp only [dispatchIntent, ha, hd]
  simp [hp]
  intro h
  exact absurd h (by decide)

theorem dispatch_add_null_duration (env : TogglEnv) (intent : JVal)
    (userText : List Char) (p : Int) (hp : p ≠ 0)
    (ha : jget intent kAction = some (JVal.jstr sAddEntry))
    (hd : jget intent kDurationSeconds = some JVal.jnull) :
    dispatchIntent env intent userText (some p) = (Reply.needDurationPrompt, []) := by
  simp only [dispatchIntent, ha, hd]
  simp [hp, truthy]
  intro h
  exact absurd h (by decide)

/-- Claim C7: classification failures are swallowed, never propagated: when
the model call raises, `get_gemini_intent` returns the
`action none / raw_text / error` intent carrying the exception message; when
the reply fails to parse as JSON it returns the same shape with a
parse-failure message; and that failure intent carries exactly
`action = "none"`, the original inbound text under `raw_text`, and the
message under `error`.  (`get_gemini_intent` is a total function of its
inputs by construction, so no classification failure can raise.) -/
theorem classification_failure_swallowed (text : List Char) :
    (∀ msg, get_gemini_intent true (GenResult.failure msg) text =
      errorIntent text msg) ∧
    (∀ rtext, jsonLoads (stripFences rtext) = none →
      get_gemini_intent true (GenResult.success rtext) text =
        errorIntent text parseFailMsg) ∧
    (∀ msg, jget (errorIntent text msg) kAction = some (JVal.jstr sNone) ∧
      jget (errorIntent text msg) kRawText = some (JVal.jstr text) ∧
      jget (errorIntent text msg) kError = some (JVal.jstr msg)) := by
  refine ⟨fun msg => rfl, fun rtext h => ?_, fun msg => ⟨rfl, rfl, rfl⟩⟩
  simp only [get_gemini_intent, h]
  rfl

/-- Witness for C7: the reply `oops` is not JSON and yields the error
intent. -/
theorem classification_failure_swallowed_witness :
    jsonLoads (stripFences "oops".toList) = none ∧
    get_gemini_intent true (GenResult.success "oops".toList) "hello".toList =
      errorIntent "hello".toList parseFailMsg :=
  ⟨by decide, (classification_failure_swallowed "hello".toList).2.1
    "oops".toList (by decide)⟩

/-- Claim C6: a `start_timer` intent arriving while no project id is held in
the conversation state produces the select-a-project prompt and issues zero
Toggl-client calls — at the shared dispatch, and through both the text
handler and the voice handler. -/
theorem start_timer_without_project_prompts :
    (∀ (env : TogglEnv) (intent : JVal) (userText : List Char),
      jget intent kAction = some (JVal.jstr sStartTimer) →
      dispatchIntent env intent userText none = (Reply.selectProjectPrompt, [])) ∧
    (∀ (env : TogglEnv) (cfg : Bool) (res : GenResult) (userText : List Char),
      jget (get_gemini_intent cfg res userText) kAction =
        some (JVal.jstr sStartTimer) →
      handle_text_message env cfg res userText none =
        (Reply.selectProjectPrompt, []) ∧
      voice_message_handler env cfg (some userText) res none =
        (Reply.selectProjectPrompt, [])) := by
  refine ⟨fun env intent userText h =>
    dispatch_start_no_project env intent userText h, ?_⟩
  intro env cfg res userText h
  cases cfg with
  | false =>
    have hu : jget (get_gemini_intent false res userText) kAction =
        some (JVal.jstr sNone) := rfl
    rw [hu] at h
    exact absurd h (by decide)
  | true =>
    exact ⟨dispatch_start_no_project env _ userText h,
           dispatch_start_no_project env _ userText h⟩

/-- Witness for C6: a bare `start_timer` intent with no selected project,
both directly and through the text handler with the classifier reply being
the corresponding JSON object. -/
theorem start_timer_without_project_prompts_witness :
    dispatchIntent (testEnv meOk [] JVal.jnull 0)
        (JVal.jobj (JEntries.econs kAction (JVal.jstr sStartTimer) JEntries.enil))
        "t".toList none = (Reply.selectProjectPrompt, []) ∧
    handle_text_message (testEnv meOk [] JVal.jnull 0) true
        (GenResult.success "\x7b\"action\": \"start_timer\"\x7d".toList)
        "t".toList none = (Reply.selectProjectPrompt, []) :=
  ⟨start_timer_without_project_prompts.1 _ _ _ (by decide),
   (start_timer_without_project_prompts.2 _ true _ _ (by decide)).1⟩

/-- Claim C5: an `add_entry` intent with a (truthy) project selected but
with `duration_seconds` absent — or present as JSON `null` — produces the
need-a-duration prompt and issues zero Toggl-client calls; and whenever the
dispatch does issue a `create_time_entry` call, the state held a truthy
project id and the intent carried a non-null (indeed truthy)
`duration_seconds`.  Both the text and the voice handler go through this
dispatch. -/
theorem add_entry_requires_duration :
    (∀ (env : TogglEnv) (intent : JVal) (userText : List Char) (p : Int),
      p ≠ 0 →
      jget intent kAction = some (JVal.jstr sAddEntry) →
      jget intent kDurationSeconds = none →
      dispatchIntent env intent userText (some p) =
        (Reply.needDurationPrompt, [])) ∧
    (∀ (env : TogglEnv) (intent : JVal) (userText : List Char) (p : Int),
      p ≠ 0 →
      jget intent kAction = some (JVal.jstr sAddEntry) →
      jget intent kDurationSeconds = some JVal.jnull →
      dispatchIntent env intent userText (some p) =
        (Reply.needDurationPrompt, [])) ∧
    (∀ (env : TogglEnv) (intent : JVal) (userText : List Char)
      (sp : Option Int) (d dv : JVal) (pid : Int),
      TogglCall.createCall d dv pid ∈
        (dispatchIntent env intent userText sp).2 →
      sp = some pid ∧ pid ≠ 0 ∧ jget intent kDurationSeconds = some dv ∧
        truthy dv = true ∧ dv ≠ JVal.jnull) ∧
    (∀ (env : TogglEnv) (cfg : Bool) (res : GenResult) (userText : List Char)
      (p : Int), p ≠ 0 →
      jget (get_gemini_intent cfg res userText) kAction =
        some (JVal.jstr sAddEntry) →
      jget (get_gemini_intent cfg res userText) kDurationSeconds = none →
      handle_text_message env cfg res userText (some p) =
        (Reply.needDurationPrompt, []) ∧
      voice_message_handler env cfg (some userText) res (some p) =
        (Reply.needDurationPrompt, [])) := by
  refine ⟨fun env intent t p hp ha hd =>
      dispatch_add_no_duration env intent t p hp ha hd,
    fun env intent t p hp ha hd =>
      dispatch_add_null_duration env intent t p hp ha hd,
    fun env intent t sp d dv pid hmem => ?_, ?_⟩
  · obtain ⟨h1, h2, h3, h4, h5, _⟩ :=
      dispatch_createCall_inv env intent t sp d dv pid hmem
    exact ⟨h1, h2, h3, h4, h5⟩
  · intro env cfg res t p hp ha hd
    cases cfg with
    | false =>
      have hu : jget (get_gemini_intent false res t) kAction =
          some (JVal.jstr sNone) := rfl
      rw [hu] at ha
      exact absurd ha (by decide)
    | true =>
      exact ⟨dispatch_add_no_duration env _ t p hp ha hd,
             dispatch_add_no_duration env _ t p hp ha hd⟩

/-- Witness for C5: an `add_entry` intent lacking `duration_seconds`, with
project 7 selected. -/
theorem add_entry_requires_duration_witness :
    dispatchIntent (testEnv meOk [] JVal.jnull 0)
        (JVal.jobj (JEntries.econs kAction (JVal.jstr sAddEntry) JEntries.enil))
        "t".toList (some 7) = (Reply.needDurationPrompt, []) :=
  add_entry_requires_duration.1 _ _ _ 7 (by decide) (by decide) (by decide)

/-- Claim C10: when the classified intent lacks a `description` field, the
dispatch passes the inbound message text (for voice, the transcription) as
the description of every `start_time_entry` / `create_time_entry` call it
issues, so such a call never carries a null description. -/
theorem missing_description_uses_raw_text :
    (∀ (env : TogglEnv) (intent : JVal) (userText : List Char)
      (sp : Option Int) (d : JVal) (pid : Int),
      jget intent kDescription = none →
      TogglCall.startCall d pid ∈ (dispatchIntent env intent userText sp).2 →
      d = JVal.jstr userText ∧ d ≠ JVal.jnull) ∧
    (∀ (env : TogglEnv) (intent : JVal) (userText : List Char)
      (sp : Option Int) (d dv : JVal) (pid : Int),
      jget intent kDescription = none →
      TogglCall.createCall d dv pid ∈ (dispatchIntent env intent userText sp).2 →
      d = JVal.jstr userText ∧ d ≠ JVal.jnull) ∧
    (∀ (env : TogglEnv) (cfg : Bool) (res : GenResult) (t : List Char)
      (sp : Option Int) (d : JVal) (pid : Int),
      jget (get_gemini_intent cfg res t) kDescription = none →
      TogglCall.startCall d pid ∈
        (voice_message_handler env cfg (some t) res sp).2 →
      d = JVal.jstr t) := by
  have hstart : ∀ (env : TogglEnv) (intent : JVal) (userText : List Char)
      (sp : Option Int) (d : JVal) (pid : Int),
      jget intent kDescription = none →
      TogglCall.startCall d pid ∈ (dispatchIntent env intent userText sp).2 →
      d = JVal.jstr userText := by
    intro env intent t sp d pid hdesc hmem
    have h := (dispatch_startCall_inv env intent t sp d pid hmem).2.2
    rw [hdesc] at h
    simpa using h
  refine ⟨fun env intent t sp d pid hdesc hmem =>
      ⟨hstart _ _ _ _ _ _ hdesc hmem, ?_⟩,
    fun env intent t sp d dv pid hdesc hmem => ?_, ?_⟩
  · rw [hstart _ _ _ _ _ _ hdesc hmem]
    simp
  · have h := (dispatch_createCall_inv env intent t sp d dv pid hmem).2.2.2.2.2
    rw [hdesc] at h
    have hd : d = JVal.jstr t := by simpa using h
    exact ⟨hd, by rw [hd]; simp⟩
  · intro env cfg res t sp d pid hdesc hmem
    cases cfg with
    | false =>
      have hz : (voice_message_handler env false (some t) res sp).2 = [] := rfl
      rw [hz] at hmem
      simp at hmem
    | true =>
      exact hstart env _ t sp d pid hdesc hmem

/-- Witness for C10: a `start_timer` intent without a `description` key
leads to a start call whose description is the raw message text. -/
theorem missing_description_uses_raw_text_witness :
    TogglCall.startCall (JVal.jstr "t".toList) 7 ∈
      (dispatchIntent (testEnv meOk [] JVal.jnull 0)
        (JVal.jobj (JEntries.econs kAction (JVal.jstr sStartTimer) JEntries.enil))
        "t".toList (some 7)).2 ∧
    JVal.jstr "t".toList ≠ JVal.jnull := by
  have hmem : TogglCall.startCall (JVal.jstr "t".toList) 7 ∈
      (dispatchIntent (testEnv meOk [] JVal.jnull 0)
        (JVal.jobj (JEntries.econs kAction (JVal.jstr sStartTimer) JEntries.enil))
        "t".toList (some 7)).2 := by decide
  exact ⟨hmem,
    (missing_description_uses_raw_text.1 _ _ _ _ _ _ (by decide) hmem).2⟩
